import Mathlib

/-!
Verification of the data pipeline and derived-metrics engine of the
Europe Development Visualizer dashboard (`app.py`).

The embedding models, from the source:
  * the memoized page fetcher `fetch_worldbank_page` (lines 52-58), with the
    `lru_cache` modelled as a key-value store threaded through the pipeline
    (the registry sizes exercised here never reach the 64-entry bound, so
    eviction is not modelled);
  * the per-indicator aggregation and the dataset build `get_worldbank_data`
    (lines 60-103), including the aliasing of the cached page-1 row list by
    `all_rows = first_page[1]` followed by the in-place `all_rows.extend(...)`,
    which mutates the cached object (modelled as a cache update of the page-1
    key after each extend);
  * the KPI callback `update_kpis` (lines 273-312) over a numpy-style scalar
    domain `NpF` with explicit `nan` and signed infinity, so that the
    `pd.notna` guards and the division guards of the source are load-bearing;
  * the bar-chart selection `update_bar_chart` (lines 337-353).

Numbers are exact rationals: the float columns produced by `pd.to_numeric`
hold a number or NaN (JSON numbers are finite), and the metric guards under
scrutiny are sign/zero tests, which rationals model faithfully.  Python
strings are Lean `String`s; where the source orders strings (pandas
`sort_values` on object columns, `groupby` key order) the code-point
lexicographic order on `String.data` is used, which is Python's own string
order.  `pd.to_numeric(..., errors='coerce')` on the year column is modelled
by a digit-string parser: World Bank `date` fields are year strings, and a
non-numeric string coerces to NaN (here `none`).  `pandas.sort_values` uses
an unstable quicksort; the model uses a stable insertion sort, which agrees
with it except on the tie order of exactly equal keys.
-/

namespace EuroViz

/-- Raw record of a World Bank API response page, keeping the four fields the
pipeline reads (line 84): `countryiso3code`, `country` (display name),
`date` (a string), `value` (a JSON number or null). -/
structure WBRec where
  countryiso3code : String
  country : String
  date : String
  value : Option ℚ
deriving DecidableEq, Repr

/-- Value found under the `pages` key of the page-1 metadata: an integer, an
arbitrary string, or JSON null.  `int(...)` at line 72 accepts the first two
(the string only when it spells an integer) and raises on the rest. -/
inductive PagesVal where
  | pInt (n : ℤ)
  | pStr (s : String)
  | pNull
deriving DecidableEq, Repr

/-- Page metadata object (`first_page[0]`): `pages` is `none` when the key is
absent, in which case `.get('pages', 1)` supplies the default 1. -/
structure WBMeta where
  pages : Option PagesVal
deriving DecidableEq, Repr

/-- Parsed JSON of one response, as far as lines 69 and 77 inspect it:
either a well-formed two-element `[metadata, records]` array, or anything
else (`not isinstance(..., list) or len(...) < 2`), which page 1 treats as
"no data" and the page loop skips. -/
inductive WBResp where
  | malformed
  | pair (meta : WBMeta) (rows : List WBRec)
deriving DecidableEq, Repr

/-- Memoization key of `fetch_worldbank_page`: joined country codes,
indicator code, date-range string and page number (`per_page` is the
constant 2000 and is omitted from the key). -/
structure Key where
  ciso : String
  code : String
  dr : String
  page : ℕ
deriving DecidableEq, Repr

/-- State of the `lru_cache` of `fetch_worldbank_page`. -/
def Cache : Type := Key → Option WBResp

/-- Cache of a fresh process: no memoized pages. -/
def emptyCache : Cache := fun _ => none

/-- Store (or overwrite) one cache entry.  An overwrite is how the in-place
`extend` of the aliased cached row list at line 78 is modelled. -/
def cacheSet (c : Cache) (k : Key) (v : WBResp) : Cache :=
  fun k' => if k' = k then some v else c k'

/-- Deterministic model of the network: what `requests.get(...).json()` would
deliver for a key, or a transport/HTTP failure (`raise_for_status`). -/
def Net : Type := Key → Except String WBResp

/-- Model of `fetch_worldbank_page` (lines 52-58): a cache hit returns the
stored object without network I/O; a miss queries the network and memoizes
the parsed response.  A raised request error is not cached. -/
def fetch_worldbank_page (net : Net) (c : Cache) (k : Key) :
    Except String WBResp × Cache :=
  match c k with
  | some v => (.ok v, c)
  | none =>
    match net k with
    | .ok v => (.ok v, cacheSet c k v)
    | .error e => (.error e, c)

/-- Accumulating decimal parser; fails on a non-digit or the empty string. -/
def parseDigits : List Char → ℕ → Option ℕ
  | [], _ => none
  | [c], acc => if c.isDigit then some (acc * 10 + (c.toNat - '0'.toNat)) else none
  | c :: cs, acc =>
    if c.isDigit then parseDigits cs (acc * 10 + (c.toNat - '0'.toNat)) else none

/-- Digit-string parser for an optionally minus-signed integer literal. -/
def parseIntLit : List Char → Option ℤ
  | [] => none
  | '-' :: cs => (parseDigits cs 0).map (fun n => -(n : ℤ))
  | cs => (parseDigits cs 0).map (fun n => (n : ℤ))

/-- Python `int(x)` applied to the `pages` metadata value (line 72): an int
passes through, a string is accepted exactly when it spells an integer, and
anything else raises. -/
def pyInt : PagesVal → Except String ℤ
  | .pInt n => .ok n
  | .pStr s =>
    match parseIntLit s.data with
    | some n => .ok n
    | none => .error "invalid literal for int()"
  | .pNull => .error "int() argument must not be None"

/-- Total page count derived from page-1 metadata:
`int(first_page[0].get('pages', 1))` at line 72.  An absent key defaults to
1; a present but non-coercible value makes `int` raise. -/
def totalPagesOf (meta : WBMeta) : Except String ℤ :=
  match meta.pages with
  | none => .ok 1
  | some v => pyInt v

/-- Coercion of the `date` column (line 93), `pd.to_numeric(..., errors='coerce')`
restricted to the year strings the API emits: a decimal string parses to the
corresponding rational, anything else coerces to NaN (`none`). -/
def parseYearQ (s : String) : Option ℚ :=
  (parseDigits s.data 0).map (fun n => ((n : ℤ) : ℚ))

/-- Canonical row of the built dataset, the five-column schema
`ISO3Code, Country, Year, Value, Indicator` (lines 84-86).  `Year` and
`Value` are float columns, hence a number or NaN (`none`). -/
structure CRow where
  iso3 : String
  country : String
  year : Option ℚ
  value : Option ℚ
  indicator : String
deriving DecidableEq, Repr

/-- Reverse country lookup (line 89): the dict comprehension
`{v: k for k, v in countries_dict.items()}` keeps, for a duplicated code,
the entry of the last name mapping to it. -/
def reverseLookup (cd : List (String × String)) (code : String) : Option String :=
  (cd.reverse.find? (fun p => p.2 == code)).map (·.1)

/-- Normalization of one raw record into a canonical row (lines 84-93):
keep the four fields, re-label the country from the reverse registry map
with the API name as fallback (`.map(...).fillna(...)`), coerce the year,
and tag the indicator display name. -/
def toClean (cd : List (String × String)) (iname : String) (rec : WBRec) : CRow :=
  { iso3 := rec.countryiso3code
    country := (reverseLookup cd rec.countryiso3code).getD rec.country
    year := parseYearQ rec.date
    value := rec.value
    indicator := iname }

/-- Cleaning of a flattened record list (lines 84-95): normalize every
record, then `dropna(subset=['Value', 'Year'])`. -/
def cleanRows (cd : List (String × String)) (iname : String)
    (rows : List WBRec) : List CRow :=
  ((rows.map (toClean cd iname)).filter (fun r => r.value.isSome && r.year.isSome))

/-- Pagination loop of lines 75-78, threading the accumulated row list and
the cache.  `all_rows` aliases the cached page-1 row list, so each
`all_rows.extend(...)` also rewrites the cache entry of the page-1 key with
the grown list (the cached page-2+ objects are read, never mutated).  A page
whose JSON is malformed or has no records is skipped; a failed fetch raises,
aborting this indicator with the partially updated cache kept. -/
def pageLoop (net : Net) (ciso icode dr : String) (meta : WBMeta) :
    List ℕ → List WBRec → Cache → Except String (List WBRec) × Cache
  | [], acc, c => (.ok acc, c)
  | p :: ps, acc, c =>
    match fetch_worldbank_page net c ⟨ciso, icode, dr, p⟩ with
    | (.error e, c') => (.error e, c')
    | (.ok resp, c') =>
      match resp with
      | .malformed => pageLoop net ciso icode dr meta ps acc c'
      | .pair _ rows =>
        if rows = [] then pageLoop net ciso icode dr meta ps acc c'
        else
          pageLoop net ciso icode dr meta ps (acc ++ rows)
            (cacheSet c' ⟨ciso, icode, dr, 1⟩ (.pair meta (acc ++ rows)))

/-- Aggregation of one indicator (the `try` body, lines 67-96): fetch page 1,
treat a malformed or empty response as no data, read the total page count,
walk pages 2..N, then clean.  `.error` is any exception that the `except` at
line 97 will catch; the cache component always reflects the fetches (and
cached-list mutations) performed before the exception. -/
def aggregateOne (net : Net) (cd : List (String × String)) (ciso dr : String)
    (ind : String × String) (c : Cache) : Except String (List CRow) × Cache :=
  match fetch_worldbank_page net c ⟨ciso, ind.2, dr, 1⟩ with
  | (.error e, c1) => (.error e, c1)
  | (.ok fp, c1) =>
    match fp with
    | .malformed => (.ok [], c1)
    | .pair meta rows1 =>
      if rows1 = [] then (.ok [], c1)
      else
        match totalPagesOf meta with
        | .error e => (.error e, c1)
        | .ok tp =>
          match pageLoop net ciso ind.2 dr meta (List.range' 2 (tp - 1).toNat) rows1 c1 with
          | (.error e, c2) => (.error e, c2)
          | (.ok allRows, c2) =>
            if allRows = [] then (.ok [], c2)
            else (.ok (cleanRows cd ind.1 allRows), c2)

/-- Per-indicator loop of the dataset build (lines 66-99): each indicator is
processed inside `try`/`except`, a caught exception contributing an empty
frame (the source appends nothing; the concatenation is the same). -/
def buildAux (net : Net) (cd : List (String × String)) (ciso dr : String) :
    List (String × String) → Cache → List (List CRow) × Cache
  | [], c => ([], c)
  | ind :: inds, c =>
    let step := aggregateOne net cd ciso dr ind c
    let rows := match step.1 with
      | .ok l => l
      | .error _ => []
    let rest := buildAux net cd ciso dr inds step.2
    (rows :: rest.1, rest.2)

/-- Joined ISO3 code list `";".join(countries_dict.values())` (line 63). -/
def cisoOf (cd : List (String × String)) : String :=
  String.intercalate ";" (cd.map (·.2))

/-- Date-range string `f"{start_year}:{end_year}"` (line 64). -/
def drOf (y0 y1 : ℤ) : String :=
  toString y0 ++ ":" ++ toString y1

/-- Sort key of the final `sort_values(['Indicator', 'Country', 'Year'])`
(line 102): lexicographic on indicator, country and year, with strings
compared by code points as Python does. -/
def rowKey (r : CRow) : Lex (List Char × Lex (List Char × ℚ)) :=
  toLex (r.indicator.data, toLex (r.country.data, r.year.getD 0))

/-- Ascending order used by the final sort of the built dataset. -/
def lexLe (a b : CRow) : Prop := rowKey a ≤ rowKey b

instance : DecidableRel lexLe :=
  fun a b => inferInstanceAs (Decidable (rowKey a ≤ rowKey b))

instance : IsTotal CRow lexLe := ⟨fun a b => le_total (rowKey a) (rowKey b)⟩

instance : IsTrans CRow lexLe := ⟨fun _ _ _ h h' => le_trans h h'⟩

/-- Model of `get_worldbank_data` (lines 60-103): aggregate every indicator
of the registry, concatenate and sort by (Indicator, Country, Year).  When
every indicator contributed nothing the result is the empty table, which in
the source still carries the canonical five-column schema (line 103); here
the schema is the `CRow` type itself. -/
def get_worldbank_data (net : Net) (cd : List (String × String))
    (inds : List (String × String)) (y0 y1 : ℤ) (c : Cache) :
    List CRow × Cache :=
  let b := buildAux net cd (cisoOf cd) (drOf y0 y1) inds c
  (List.insertionSort lexLe b.1.flatten, b.2)

/-- Scalar domain of the KPI computations: a numpy float64 that is NaN, a
finite number, or a signed infinity (`inf true` is +∞).  Finite values are
exact rationals; overflow to infinity of finite real arithmetic is outside
the model, but infinities produced by division are modelled so that the
division guards of the source are load-bearing. -/
inductive NpF where
  | nan
  | fin (q : ℚ)
  | inf (pos : Bool)
deriving DecidableEq, Repr

/-- Embeds a float-column cell (number or NaN) into the scalar domain. -/
def toNpF : Option ℚ → NpF
  | none => .nan
  | some q => .fin q

/-- Model of `pd.notna` on a scalar: false exactly on NaN (infinities are
not NA for pandas). -/
def notna : NpF → Bool
  | .nan => false
  | _ => true

/-- Comparison `x != 0` on a numpy scalar: NaN and the infinities compare
unequal to zero. -/
def npNeZero : NpF → Bool
  | .fin q => decide (q ≠ 0)
  | _ => true

/-- Numpy subtraction. -/
def npSub : NpF → NpF → NpF
  | .nan, _ => .nan
  | _, .nan => .nan
  | .fin a, .fin b => .fin (a - b)
  | .inf s, .fin _ => .inf s
  | .fin _, .inf s => .inf (!s)
  | .inf s, .inf t => if s = t then .nan else .inf s

/-- Numpy division: a nonzero finite over zero is a signed infinity,
0/0 is NaN (with the zero denominator treated as +0). -/
def npDiv : NpF → NpF → NpF
  | .nan, _ => .nan
  | _, .nan => .nan
  | .fin a, .fin b =>
    if b = 0 then (if a = 0 then .nan else .inf (decide (0 < a)))
    else .fin (a / b)
  | .inf s, .fin b => if b = 0 then .inf s else .inf (s = decide (0 < b))
  | .fin _, .inf _ => .fin 0
  | .inf _, .inf _ => .nan

/-- Numpy multiplication: infinity times zero is NaN. -/
def npMul : NpF → NpF → NpF
  | .nan, _ => .nan
  | _, .nan => .nan
  | .fin a, .fin b => .fin (a * b)
  | .inf s, .fin b => if b = 0 then .nan else .inf (s = decide (0 < b))
  | .fin a, .inf s => if a = 0 then .nan else .inf (s = decide (0 < a))
  | .inf s, .inf t => .inf (s = t)

/-- Value of the CAGR expression `((last/first) ** (1/n) - 1) * 100`
(line 294), kept symbolic: `exact q` is the rational value when the
exponent is the integer 1, and `irr r n` denotes the real
`((r ^ (1/n)) - 1) * 100`, finite whenever `0 ≤ r`.  `nan` covers numpy's
NaN result for a negative base under a fractional exponent. -/
inductive CagrV where
  | nan
  | exact (q : ℚ)
  | irr (rbase : ℚ) (n : ℕ)
  | infv (pos : Bool)
deriving DecidableEq, Repr

/-- Numpy evaluation of `ratio ** (1/n)` folded with `(- 1) * 100`:
for `n = 1` the exponent is the float 1.0 and the power is the ratio itself
whatever its sign; for `n ≥ 2` the exponent is fractional, so a negative
finite ratio yields NaN and a negative infinity yields NaN, while a
nonnegative ratio yields a finite real and +∞ stays +∞. -/
def cagrPowEval (ratio : NpF) (n : ℕ) : CagrV :=
  match ratio with
  | .nan => .nan
  | .fin r =>
    if n ≤ 1 then .exact ((r - 1) * 100)
    else if r < 0 then .nan
    else .irr r n
  | .inf s =>
    if n ≤ 1 then .infv s
    else if s then .infv true else .nan

/-- Model of `pd.notna` applied to the CAGR scalar at line 310. -/
def cagrNotna : CagrV → Bool
  | .nan => false
  | _ => true

/-- Python `int()` truncation of a float year toward zero (lines 282, 292). -/
def ratTrunc (q : ℚ) : ℤ :=
  if 0 ≤ q then ⌊q⌋ else ⌈q⌉

/-- Test `DF_ALL['Year'].between(y0, y1)` on one cell: NaN is inside no
interval. -/
def yearBetween : Option ℚ → ℤ → ℤ → Bool
  | some y, a, b => decide ((a : ℚ) ≤ y) && decide (y ≤ (b : ℚ))
  | none, _, _ => false

/-- Test `DF_ALL['Year'] == last_year` on one cell (line 296): NaN compares
false. -/
def yearEqB : Option ℚ → ℤ → Bool
  | some y, n => decide (y = (n : ℚ))
  | none, _ => false

/-- Row filter of the KPI callback (line 276): indicator, single country and
inclusive year range. -/
def kpiRowMatch (ind country : String) (y0 y1 : ℤ) (r : CRow) : Bool :=
  r.indicator == ind && r.country == country && yearBetween r.year y0 y1

/-- Matching rows of the KPI selection (`df_indicator` before the sort). -/
def kpiMatched (ds : List CRow) (ind country : String) (y0 y1 : ℤ) : List CRow :=
  ds.filter (kpiRowMatch ind country y0 y1)

/-- Ascending year order of `sort_values('Year')`. -/
def yearLe (a b : CRow) : Prop := a.year.getD 0 ≤ b.year.getD 0

instance : DecidableRel yearLe :=
  fun a b => inferInstanceAs (Decidable (a.year.getD 0 ≤ b.year.getD 0))

instance : IsTotal CRow yearLe := ⟨fun _ _ => le_total _ _⟩

instance : IsTrans CRow yearLe := ⟨fun _ _ _ h h' => le_trans h h'⟩

/-- KPI selection sorted by year (line 280). -/
def kpiMatchedSorted (ds : List CRow) (ind country : String) (y0 y1 : ℤ) : List CRow :=
  List.insertionSort yearLe (kpiMatched ds ind country y0 y1)

/-- Descending value order of `sort_values('Value', ascending=False)`. -/
def valGe (a b : CRow) : Prop := b.value.getD 0 ≤ a.value.getD 0

instance : DecidableRel valGe :=
  fun a b => inferInstanceAs (Decidable (b.value.getD 0 ≤ a.value.getD 0))

instance : IsTotal CRow valGe := ⟨fun _ _ => le_total _ _⟩

instance : IsTrans CRow valGe := ⟨fun _ _ _ h h' => le_trans h' h⟩

/-- Cross-country cross-section used by the rank KPI (line 296): all rows of
the indicator at the single latest year, with missing values dropped. -/
def crossSection (ds : List CRow) (ind : String) (ly : ℤ) : List CRow :=
  (ds.filter (fun r => r.indicator == ind && yearEqB r.year ly)).filter
    (fun r => r.value.isSome)

/-- Rank and context-year texts of lines 296-304: sort the cross-section
descending by value, 1-based position of the first row of the selected
country, rendered `"#k of n"`; `'N/A'` when the cross-section is empty or
the country is absent from it. -/
def rankTextOf (ds : List CRow) (ind country : String) (ly : ℤ) : String × String :=
  let dly := crossSection ds ind ly
  if dly = [] then ("N/A", "")
  else
    let sorted := List.insertionSort valGe dly
    match sorted.findIdx? (fun r => r.country == country) with
    | some i => ("#" ++ toString (i + 1) ++ " of " ++ toString sorted.length,
                 "Year " ++ toString ly)
    | none => ("N/A", "Year " ++ toString ly)

/-- Rendering of a numeric KPI through its `pd.notna` guard (lines 308-310)
or through the `pd.isna` guard of `format_value` (line 110): `none` is the
string `'N/A'`; a retained scalar is formatted with `:,.2f`, so a NaN that
slipped through would render as the string "nan" and an infinity as "inf". -/
def renderNp (v : NpF) : Option NpF :=
  if notna v then some v else none

/-- Eight outputs of the KPI callback, at value level: the four numeric
cards keep their guarded scalar (`none` is the rendered `'N/A'`), the label
outputs keep their final strings. -/
structure KpiOut where
  kpiValue : Option NpF
  kpiYear : String
  kpiVar : Option NpF
  kpiVarAbs : Option NpF
  kpiCagr : Option CagrV
  kpiRange : String
  kpiRank : String
  kpiTop : String
deriving DecidableEq, Repr

/-- Early return `['N/A'] * 8` of line 278. -/
def KpiOut.allNA : KpiOut :=
  { kpiValue := none, kpiYear := "N/A", kpiVar := none, kpiVarAbs := none,
    kpiCagr := none, kpiRange := "N/A", kpiRank := "N/A", kpiTop := "N/A" }

/-- Scalar of the `vs. Previous Year` percentage (lines 284-289): with at
least two rows, `((last - prev) / prev) * 100` when `prev_val != 0 and
pd.notna(prev_val)`, else NaN; with fewer than two rows, NaN.  The
out-of-range index access of `iloc[-2]` cannot occur under the length
guard; its unreachable arm yields NaN. -/
def varPctOf (s : List CRow) (lastVal : Option ℚ) : NpF :=
  if 2 ≤ s.length then
    match s[s.length - 2]? with
    | none => .nan
    | some prevRow =>
      let pv := toNpF prevRow.value
      if npNeZero pv && notna pv then
        npMul (npDiv (npSub (toNpF lastVal) pv) pv) (.fin 100)
      else .nan
  else .nan

/-- Scalar of the `vs. Previous Year` absolute delta (lines 287, 289):
`last - prev` whenever at least two rows match, NaN otherwise. -/
def varAbsOf (s : List CRow) (lastVal : Option ℚ) : NpF :=
  if 2 ≤ s.length then
    match s[s.length - 2]? with
    | none => .nan
    | some prevRow => npSub (toNpF lastVal) (toNpF prevRow.value)
  else .nan

/-- Scalar of the CAGR card (lines 291-294): guarded by
`first_val != 0 and pd.notna(first_val)`, then the numpy power evaluation
of `(last / first) ** (1 / num_years)` folded with `(- 1) * 100`. -/
def cagrValOf (lastVal fv : Option ℚ) (n : ℕ) : CagrV :=
  if npNeZero (toNpF fv) && notna (toNpF fv) then
    cagrPowEval (npDiv (toNpF lastVal) (toNpF fv)) n
  else .nan

/-- Eight outputs of a successful KPI pass (lines 306-311), given the
year-sorted selection `s`, its last and first rows and their (coerced,
non-NaN) years. -/
def kpiRecord (ds : List CRow) (indicator country : String) (y0 y1 : ℤ)
    (s : List CRow) (lastRow firstRow : CRow) (ly fy : ℚ) : KpiOut :=
  let lastYear : ℤ := ratTrunc ly
  let numYears : ℕ := (max 1 (lastYear - ratTrunc fy)).toNat
  let rk := rankTextOf ds indicator country lastYear
  { kpiValue := renderNp (toNpF lastRow.value)
    kpiYear := "Year " ++ toString lastYear
    kpiVar := renderNp (varPctOf s lastRow.value)
    kpiVarAbs := renderNp (varAbsOf s lastRow.value)
    kpiCagr :=
      (if cagrNotna (cagrValOf lastRow.value firstRow.value numYears) then
        some (cagrValOf lastRow.value firstRow.value numYears)
      else none)
    kpiRange := toString y0 ++ "–" ++ toString y1
    kpiRank := rk.1
    kpiTop := rk.2 }

/-- Model of `update_kpis` (lines 273-312).  `none` is an uncaught
exception: the partial accesses (`iloc[-1]`, `iloc[0]`,
`int(...)` on a NaN year) are modelled by option-valued lookups, and the
shown guards of the source are what rules the `none` branches out. -/
def update_kpis (ds : List CRow) (indicator country : String) (y0 y1 : ℤ) :
    Option KpiOut :=
  let dfi := kpiMatched ds indicator country y0 y1
  if dfi = [] then some KpiOut.allNA
  else
    let s := List.insertionSort yearLe dfi
    match s.getLast? with
    | none => none
    | some lastRow =>
      match lastRow.year with
      | none => none
      | some ly =>
        match s.head? with
        | none => none
        | some firstRow =>
          match firstRow.year with
          | none => none
          | some fy => some (kpiRecord ds indicator country y0 y1 s lastRow firstRow ly fy)

/-- First row attaining the group's maximum value, the pandas
`groupby('Country')['Value'].idxmax()` on one group in the given row order:
NaN values are skipped, and an all-NaN group raises (`none`). -/
def argmaxVal (l : List CRow) : Option CRow :=
  let l' := l.filter (fun r => r.value.isSome)
  match l' with
  | [] => none
  | x :: xs =>
    let m := xs.foldl (fun acc r => max acc (r.value.getD 0)) (x.value.getD 0)
    l'.find? (fun r => decide (r.value.getD 0 = m))

/-- Ascending code-point order on country names, the `groupby` key order. -/
def strLe (a b : String) : Prop := a.data ≤ b.data

instance : DecidableRel strLe :=
  fun a b => inferInstanceAs (Decidable (a.data ≤ b.data))

instance : IsTotal String strLe := ⟨fun _ _ => le_total _ _⟩

instance : IsTrans String strLe := ⟨fun _ _ _ h h' => le_trans h h'⟩

/-- Rows feeding the bar chart (lines 337-345): filter by indicator and year
range; per country (in `groupby` order over the year-sorted frame) take the
row of `['Value'].idxmax()`; `dropna` and sort descending by value.  `none`
models the `idxmax` exception on an all-NaN group; an empty filter result
short-circuits to the empty selection (the "no data" figure). -/
def update_bar_select (ds : List CRow) (indicator : String) (y0 y1 : ℤ) :
    Option (List CRow) :=
  let df := ds.filter (fun r => r.indicator == indicator && yearBetween r.year y0 y1)
  if df = [] then some []
  else
    let sortedY := List.insertionSort yearLe df
    let countries := List.insertionSort strLe (sortedY.map (·.country)).dedup
    match countries.mapM (fun ct => argmaxVal (sortedY.filter (fun r => r.country == ct))) with
    | none => none
    | some picks =>
      some (List.insertionSort valGe (picks.filter (fun r => r.value.isSome)))

/-! ### Concrete scenario data -/

/-- Single-country registry used by the concrete scenarios. -/
def cdDE : List (String × String) := [("Germany", "DEU")]

/-- Raw record: Germany, year 2020, value 1. -/
def recA : WBRec := ⟨"DEU", "Germany (api)", "2020", some 1⟩

/-- Raw record: Germany, year 2021, value 2. -/
def recB : WBRec := ⟨"DEU", "Germany (api)", "2021", some 2⟩

/-- Cleaned form of `recA` under `cdDE` and indicator name "X". -/
def cleanA : CRow := ⟨"DEU", "Germany", some 2020, some 1, "X"⟩

/-- Cleaned form of `recB` under `cdDE` and indicator name "X". -/
def cleanB : CRow := ⟨"DEU", "Germany", some 2021, some 2, "X"⟩

/-- Network of the C1 scenario: indicator `IND` has two pages of data;
page 1 carries `recA` and reports `pages = 2`, page 2 carries `recB`. -/
def netC1 : Net := fun k =>
  if k = ⟨"DEU", "IND", "2000:2024", 1⟩ then
    .ok (.pair ⟨some (.pInt 2)⟩ [recA])
  else if k = ⟨"DEU", "IND", "2000:2024", 2⟩ then
    .ok (.pair ⟨some (.pInt 2)⟩ [recB])
  else .error "unexpected request"

/-- First dataset build of the C1 scenario, from a fresh cache. -/
def runC1a : List CRow × Cache :=
  get_worldbank_data netC1 cdDE [("X", "IND")] 2000 2024 emptyCache

/-- Second, identical dataset build, reusing the memoized fetcher state of
the first. -/
def runC1b : List CRow × Cache :=
  get_worldbank_data netC1 cdDE [("X", "IND")] 2000 2024 runC1a.2

/-- C1: running the aggregation twice with identical inputs against the
memoized fetcher is NOT idempotent.  The first build returns the page-1 and
page-2 rows once each; because `all_rows` aliases the cached page-1 list and
`extend` mutates it in place, the second identical build reads the corrupted
cache entry and returns the page-2 row twice. -/
theorem C1_memoized_rerun_duplicates_rows :
    runC1a.1 = [cleanA, cleanB] ∧
    runC1b.1 = [cleanA, cleanB, cleanB] ∧
    runC1b.1 ≠ runC1a.1 ∧
    runC1b.1.count cleanB = 2 ∧ runC1a.1.count cleanB = 1 := by
  refine ⟨by decide, by decide, by decide, by decide, by decide⟩

/-- Dataset of the C2 scenario: one indicator "X", one country, a 2020 row
with the larger value 100 and a 2021 row with the smaller value 90. -/
def rG2020 : CRow := ⟨"DEU", "Germany", some 2020, some 100, "X"⟩

/-- Later year, smaller value. -/
def rG2021 : CRow := ⟨"DEU", "Germany", some 2021, some 90, "X"⟩

/-- Two-row dataset exposing the bar-chart selection defect. -/
def dsC2 : List CRow := [rG2020, rG2021]

/-- C2: the bar-chart "latest year" selection actually picks, per country,
the row of the maximum VALUE (`['Value'].idxmax()`), not the row of the
maximum year.  Germany's in-range rows are (2020, 100) and (2021, 90):
the claim requires the 2021 row; the code selects the 2020 row. -/
theorem C2_bar_selects_max_value_not_max_year :
    update_bar_select dsC2 "X" 2000 2024 = some [rG2020] ∧
    rG2020.year = some 2020 ∧
    rG2021 ∈ dsC2 ∧ rG2021.indicator = "X" ∧ rG2021.country = "Germany" ∧
    rG2021.value.isSome = true ∧
    yearBetween rG2021.year 2000 2024 = true ∧
    (∀ r ∈ dsC2, r.year.getD 0 ≤ 2021) ∧ rG2021.year = some 2021 := by
  refine ⟨by decide, by decide, by decide, by decide, by decide, by decide,
    by decide, by decide, by decide⟩

/-- Network of the C8 scenario: page 1 of indicator `IND` has a perfectly
cleanable record but a malformed `pages` metadata value. -/
def netC8 : Net := fun k =>
  if k = ⟨"DEU", "IND", "2000:2024", 1⟩ then
    .ok (.pair ⟨some (.pStr "oops")⟩ [recA])
  else .error "unexpected request"

/-- C8 counterexample: with a malformed `pages` value the indicator
contributes ZERO rows — `int('oops')` raises and the per-indicator handler
discards the whole indicator — although its page-1 records clean to a
non-empty row list.  The claim asserts the malformed field defaults to 1
and the page-1 rows still contribute. -/
theorem C8_malformed_pages_drops_indicator :
    (get_worldbank_data netC8 cdDE [("X", "IND")] 2000 2024 emptyCache).1 = [] ∧
    cleanRows cdDE "X" [recA] = [cleanA] ∧ cleanA ∈ cleanRows cdDE "X" [recA] := by
  refine ⟨by decide, by decide, by decide⟩

/-- C8 (amended): the total page count is the `pages` metadata value when it
is an int or an integer-spelling string, and defaults to 1 exactly when the
key is absent; a present but non-coercible value raises instead of
defaulting, and the per-indicator handler then discards the indicator, as
the concrete `netC8` build shows. -/
theorem C8_total_pages_semantics :
    totalPagesOf ⟨none⟩ = .ok 1 ∧
    (∀ n : ℤ, totalPagesOf ⟨some (.pInt n)⟩ = .ok n) ∧
    (∀ s : String, parseIntLit s.data = none →
      totalPagesOf ⟨some (.pStr s)⟩ = .error "invalid literal for int()") ∧
    totalPagesOf ⟨some .pNull⟩ = .error "int() argument must not be None" ∧
    (get_worldbank_data netC8 cdDE [("X", "IND")] 2000 2024 emptyCache).1 = [] := by
  refine ⟨rfl, fun n => rfl, fun s h => ?_, rfl, by decide⟩
  simp only [totalPagesOf, pyInt, h]

/-- Witness of `C8_total_pages_semantics` at the malformed string "oops". -/
theorem C8_total_pages_semantics_witness :
    parseIntLit "oops".data = none ∧
    totalPagesOf ⟨some (.pStr "oops")⟩ = .error "invalid literal for int()" :=
  ⟨by decide, C8_total_pages_semantics.2.2.1 "oops" (by decide)⟩

/-- One-row dataset with a negative value, for the C4 counterexample. -/
def dsC4 : List CRow := [⟨"DEU", "Germany", some 2020, some (-2), "X"⟩]

/-- C4 counterexample: with `FirstValue = -2` (negative) the CAGR output is
a computed number, not the `'N/A'` marker the claim requires for every
negative first value: here the span is `max(1, 0) = 1`, the exponent is the
integer 1.0, and `(-2 / -2) ** 1.0` is real, so the guard `first_val != 0`
passes and a numeric CAGR is rendered. -/
theorem C4_negative_first_value_yields_number :
    ((update_kpis dsC4 "X" "Germany" 2000 2024).bind (fun o => o.kpiCagr)) ≠ none ∧
    dsC4.head?.bind (fun r => r.value) = some (-2) := by
  refine ⟨by decide, by decide⟩

/-! ### Invariants of the dataset build -/

/-- Every cleaned row has a coerced year and value and carries the
indicator's display name: `cleanRows` ends in the `dropna` filter and tags
column `Indicator` with `iname`. -/
theorem cleanRows_mem {cd : List (String × String)} {iname : String}
    {raw : List WBRec} {r : CRow} (hr : r ∈ cleanRows cd iname raw) :
    (r.value.isSome ∧ r.year.isSome) ∧ r.indicator = iname := by
  unfold cleanRows at hr
  rcases List.mem_filter.mp hr with ⟨hmem, hcond⟩
  rcases List.mem_map.mp hmem with ⟨rec, _, hrec⟩
  refine ⟨?_, ?_⟩
  · have := of_decide_eq_true (by simpa [Bool.and_eq_true] using hcond)
    simp only [Bool.and_eq_true, decide_eq_true_eq] at hcond
    exact ⟨hcond.1, hcond.2⟩
  · rw [← hrec]; rfl

/-- A successful per-indicator aggregation returns either no rows or the
cleaning of some flattened record list. -/
theorem aggregateOne_ok {net : Net} {cd : List (String × String)}
    {ciso dr : String} {ind : String × String} {c : Cache} {rows : List CRow}
    (h : (aggregateOne net cd ciso dr ind c).1 = .ok rows) :
    rows = [] ∨ ∃ raw, rows = cleanRows cd ind.1 raw := by
  unfold aggregateOne at h
  repeat' split at h
  all_goals simp_all
  all_goals first
    | exact Or.inl h.symm
    | exact Or.inr ⟨_, h.symm⟩

/-- Membership in the concatenated per-indicator contributions: every row
survived a `dropna` and is tagged with the display name of a registry
indicator. -/
theorem buildAux_flatten_mem (net : Net) (cd : List (String × String))
    (ciso dr : String) :
    ∀ (inds : List (String × String)) (c : Cache) (r : CRow),
      r ∈ (buildAux net cd ciso dr inds c).1.flatten →
      (r.value.isSome ∧ r.year.isSome) ∧ r.indicator ∈ inds.map (·.1)
  | [], _, r, hr => by simp [buildAux] at hr
  | ind :: inds, c, r, hr => by
    simp only [buildAux, List.flatten_cons] at hr
    rcases List.mem_append.mp hr with hl | hl
    · revert hl
      cases hstep : (aggregateOne net cd ciso dr ind c).1 with
      | error e => simp
      | ok l =>
        intro hl
        rcases aggregateOne_ok hstep with rfl | ⟨raw, rfl⟩
        · simp at hl
        · rcases cleanRows_mem hl with ⟨hv, hi⟩
          exact ⟨hv, by simp [hi]⟩
    · rcases buildAux_flatten_mem net cd ciso dr inds _ r hl with ⟨hv, hi⟩
      exact ⟨hv, by simpa using Or.inr (by simpa using hi)⟩

/-- C10: every row of the dataset produced by the build has a non-missing
numeric Value and a non-missing numeric Year — rows failing either numeric
coercion were removed by the `dropna` at line 95, so no downstream consumer
observes a missing Value or Year. -/
theorem C10_built_rows_nonmissing (net : Net) (cd : List (String × String))
    (inds : List (String × String)) (y0 y1 : ℤ) (c : Cache) :
    ∀ r ∈ (get_worldbank_data net cd inds y0 y1 c).1,
      r.value.isSome ∧ r.year.isSome := by
  intro r hr
  have hr' : r ∈ (buildAux net cd (cisoOf cd) (drOf y0 y1) inds c).1.flatten := by
    simpa [get_worldbank_data] using hr
  exact (buildAux_flatten_mem net cd (cisoOf cd) (drOf y0 y1) inds c r hr').1

/-- Witness of `C10_built_rows_nonmissing`: the cleaned page-1 row of the
C1 scenario is in the built dataset, and indeed carries both coordinates. -/
theorem C10_built_rows_nonmissing_witness :
    cleanA ∈ (get_worldbank_data netC1 cdDE [("X", "IND")] 2000 2024 emptyCache).1 ∧
    cleanA.value.isSome ∧ cleanA.year.isSome :=
  ⟨by decide,
   C10_built_rows_nonmissing netC1 cdDE [("X", "IND")] 2000 2024 emptyCache
     cleanA (by decide)⟩

/-- C9: the dataset build returns the concatenation of the per-indicator
row sequences sorted ascending by (Indicator, Country, Year), and when
every indicator contributes zero rows it returns the empty table (which, by
the `CRow` type, still carries the canonical five-column schema). -/
theorem C9_build_sorted_concat (net : Net) (cd : List (String × String))
    (inds : List (String × String)) (y0 y1 : ℤ) (c : Cache) :
    ((get_worldbank_data net cd inds y0 y1 c).1.Sorted lexLe) ∧
    ((get_worldbank_data net cd inds y0 y1 c).1.Perm
      (buildAux net cd (cisoOf cd) (drOf y0 y1) inds c).1.flatten) ∧
    ((∀ l ∈ (buildAux net cd (cisoOf cd) (drOf y0 y1) inds c).1, l = []) →
      (get_worldbank_data net cd inds y0 y1 c).1 = []) := by
  refine ⟨List.sorted_insertionSort lexLe _, List.perm_insertionSort lexLe _, ?_⟩
  intro hall
  have : (buildAux net cd (cisoOf cd) (drOf y0 y1) inds c).1.flatten = [] := by
    simpa [List.flatten_eq_nil_iff] using hall
  simp only [get_worldbank_data, this]
  rfl

/-- Witness of `C9_build_sorted_concat`: with a network that is entirely
down every indicator contributes zero rows and the build returns the empty
dataset. -/
theorem C9_build_sorted_concat_witness :
    (get_worldbank_data (fun _ => .error "down") cdDE [("X", "IND")]
      2000 2024 emptyCache).1 = [] :=
  (C9_build_sorted_concat (fun _ => .error "down") cdDE [("X", "IND")]
    2000 2024 emptyCache).2.2 (by decide)

/-! ### Safety of the KPI computation -/

/-- Scalar that is NaN or finite — never an infinity. -/
def FinOrNan (v : NpF) : Prop := v = .nan ∨ ∃ q, v = .fin q

/-- Cells of a float column embed to NaN or a finite scalar. -/
theorem toNpF_finOrNan (ov : Option ℚ) : FinOrNan (toNpF ov) := by
  cases ov with
  | none => exact Or.inl rfl
  | some q => exact Or.inr ⟨q, rfl⟩

/-- Subtraction of NaN-or-finite scalars stays NaN or finite. -/
theorem npSub_finOrNan {a b : NpF} (ha : FinOrNan a) (hb : FinOrNan b) :
    FinOrNan (npSub a b) := by
  rcases ha with rfl | ⟨qa, rfl⟩ <;> rcases hb with rfl | ⟨qb, rfl⟩
  · exact Or.inl rfl
  · exact Or.inl rfl
  · exact Or.inl rfl
  · exact Or.inr ⟨qa - qb, rfl⟩

/-- Division by a NONZERO finite scalar stays NaN or finite: this is where
the `prev_val != 0` and `first_val != 0` guards of the source matter, since
division by zero would produce an infinity. -/
theorem npDiv_finOrNan {a : NpF} {p : ℚ} (ha : FinOrNan a) (hp : p ≠ 0) :
    FinOrNan (npDiv a (.fin p)) := by
  rcases ha with rfl | ⟨qa, rfl⟩
  · exact Or.inl rfl
  · right
    exact ⟨qa / p, by simp [npDiv, hp]⟩

/-- Multiplication of NaN-or-finite scalars stays NaN or finite. -/
theorem npMul_finOrNan {a b : NpF} (ha : FinOrNan a) (hb : FinOrNan b) :
    FinOrNan (npMul a b) := by
  rcases ha with rfl | ⟨qa, rfl⟩ <;> rcases hb with rfl | ⟨qb, rfl⟩
  · exact Or.inl rfl
  · exact Or.inl rfl
  · exact Or.inl rfl
  · exact Or.inr ⟨qa * qb, rfl⟩

/-- Guarded rendering of a numeric KPI that only ever shows a finite number:
`none` is the `'N/A'` string, and anything retained is finite. -/
def npGood (v : Option NpF) : Prop := ∀ x, v = some x → ∃ q, x = NpF.fin q

/-- Rendered CAGR that never leaks NaN or an infinity: anything retained is
the exact rational of an integer exponent or a real power of a NONNEGATIVE
base, both finite. -/
def cagrGood (v : Option CagrV) : Prop :=
  ∀ x, v = some x → (∃ q, x = CagrV.exact q) ∨ ∃ r n, x = CagrV.irr r n ∧ 0 ≤ r

/-- Rendering a NaN-or-finite scalar through the `pd.notna` guard is good:
the NaN case renders `'N/A'` and the finite case is finite. -/
theorem npGood_renderNp {v : NpF} (hv : FinOrNan v) : npGood (renderNp v) := by
  rcases hv with rfl | ⟨q, rfl⟩
  · intro x hx; simp [renderNp, notna] at hx
  · intro x hx
    simp only [renderNp, notna, if_pos] at hx
    exact ⟨q, (Option.some.inj hx).symm⟩

/-- Guard analysis of a passed `x != 0 and pd.notna(x)` test on a
float-column cell: the cell holds a nonzero finite number. -/
theorem guard_fin_ne_zero {ov : Option ℚ}
    (hg : (npNeZero (toNpF ov) && notna (toNpF ov)) = true) :
    ∃ p, toNpF ov = .fin p ∧ p ≠ 0 := by
  rcases toNpF_finOrNan ov with hnan | ⟨p, hfin⟩
  · rw [hnan] at hg; simp [notna, npNeZero] at hg
  · refine ⟨p, hfin, ?_⟩
    rw [hfin] at hg
    simpa [npNeZero, notna] using hg

/-- The year-over-year percentage scalar is NaN or finite: the `prev != 0`
guard keeps the division away from producing an infinity. -/
theorem varPctOf_finOrNan (s : List CRow) (lv : Option ℚ) :
    FinOrNan (varPctOf s lv) := by
  unfold varPctOf
  by_cases hl : 2 ≤ s.length
  · rw [if_pos hl]
    cases hp : s[s.length - 2]? with
    | none => exact Or.inl rfl
    | some prevRow =>
      simp only
      by_cases hg : (npNeZero (toNpF prevRow.value) && notna (toNpF prevRow.value)) = true
      · rw [if_pos hg]
        obtain ⟨p, hfin, hp0⟩ := guard_fin_ne_zero hg
        rw [hfin]
        exact npMul_finOrNan
          (npDiv_finOrNan (npSub_finOrNan (toNpF_finOrNan _) (Or.inr ⟨p, rfl⟩)) hp0)
          (Or.inr ⟨100, rfl⟩)
      · rw [if_neg hg]
        exact Or.inl rfl
  · rw [if_neg hl]
    exact Or.inl rfl

/-- The year-over-year absolute delta scalar is NaN or finite. -/
theorem varAbsOf_finOrNan (s : List CRow) (lv : Option ℚ) :
    FinOrNan (varAbsOf s lv) := by
  unfold varAbsOf
  by_cases hl : 2 ≤ s.length
  · rw [if_pos hl]
    cases hp : s[s.length - 2]? with
    | none => exact Or.inl rfl
    | some prevRow => exact npSub_finOrNan (toNpF_finOrNan _) (toNpF_finOrNan _)
  · rw [if_neg hl]
    exact Or.inl rfl

/-- Evaluating the CAGR power on a NaN-or-finite ratio yields NaN, an exact
rational, or a real power of a nonnegative base: numpy maps a negative base
under a fractional exponent to NaN rather than to a complex or infinite
value. -/
theorem cagrPowEval_cases {ratio : NpF} (hr : FinOrNan ratio) (n : ℕ) :
    cagrPowEval ratio n = .nan ∨ (∃ q, cagrPowEval ratio n = .exact q) ∨
      ∃ r, cagrPowEval ratio n = .irr r n ∧ 0 ≤ r := by
  rcases hr with rfl | ⟨q, rfl⟩
  · exact Or.inl rfl
  · by_cases h1 : n ≤ 1
    · exact Or.inr (Or.inl ⟨(q - 1) * 100, by simp [cagrPowEval, h1]⟩)
    · by_cases hneg : q < 0
      · exact Or.inl (by simp [cagrPowEval, h1, hneg])
      · exact Or.inr (Or.inr ⟨q, by simp [cagrPowEval, h1, hneg], le_of_not_lt hneg⟩)

/-- The CAGR scalar is NaN, an exact rational, or a real power of a
nonnegative base: the `first != 0` guard and numpy's NaN for negative bases
rule out an infinity from the division and any non-real value. -/
theorem cagrValOf_cases (lv fv : Option ℚ) (n : ℕ) :
    cagrValOf lv fv n = .nan ∨ (∃ q, cagrValOf lv fv n = .exact q) ∨
      ∃ r, cagrValOf lv fv n = .irr r n ∧ 0 ≤ r := by
  unfold cagrValOf
  by_cases hg : (npNeZero (toNpF fv) && notna (toNpF fv)) = true
  · rw [if_pos hg]
    obtain ⟨p, hfin, hp0⟩ := guard_fin_ne_zero hg
    rw [hfin]
    exact cagrPowEval_cases (npDiv_finOrNan (toNpF_finOrNan _) hp0) n
  · rw [if_neg hg]
    exact Or.inl rfl

/-- The rendered CAGR card is good for any CAGR scalar in the range of
`cagrValOf`. -/
theorem cagrGood_render (lv fv : Option ℚ) (n : ℕ) :
    cagrGood (if cagrNotna (cagrValOf lv fv n) then some (cagrValOf lv fv n)
              else none) := by
  rcases cagrValOf_cases lv fv n with hc | ⟨q, hc⟩ | ⟨r, hc, hr0⟩
  · rw [hc]; intro x hx; simp [cagrNotna] at hx
  · rw [hc]
    intro x hx
    simp only [cagrNotna, if_pos] at hx
    exact Or.inl ⟨q, (Option.some.inj hx).symm⟩
  · rw [hc]
    intro x hx
    simp only [cagrNotna, if_pos] at hx
    exact Or.inr ⟨r, n, (Option.some.inj hx).symm, hr0⟩

/-- Every row of the year-sorted KPI selection passed the year-range
filter, so its year coerced successfully. -/
theorem kpiMatchedSorted_year_isSome {ds : List CRow} {ind country : String}
    {y0 y1 : ℤ} {r : CRow}
    (hr : r ∈ List.insertionSort yearLe (kpiMatched ds ind country y0 y1)) :
    ∃ qy, r.year = some qy := by
  have hr' : r ∈ kpiMatched ds ind country y0 y1 :=
    (List.mem_insertionSort yearLe).mp hr
  have hb : yearBetween r.year y0 y1 = true := by
    have := (List.mem_filter.mp hr').2
    simp only [kpiRowMatch, Bool.and_eq_true] at this
    exact this.2
  cases hy : r.year with
  | none => rw [hy] at hb; simp [yearBetween] at hb
  | some qy => exact ⟨qy, rfl⟩

/-- C3: for every dataset, indicator, country and year range with at least
one matching row, the KPI computation terminates without raising (returns
`some`), and each of its numeric outputs is either a finite number or the
`'N/A'` marker — never NaN or an infinity. -/
theorem C3_metrics_total_and_guarded (ds : List CRow) (ind country : String)
    (y0 y1 : ℤ) (h : kpiMatched ds ind country y0 y1 ≠ []) :
    ∃ o, update_kpis ds ind country y0 y1 = some o ∧
      npGood o.kpiValue ∧ npGood o.kpiVar ∧ npGood o.kpiVarAbs ∧
      cagrGood o.kpiCagr := by
  have hs : List.insertionSort yearLe (kpiMatched ds ind country y0 y1) ≠ [] := by
    intro hnil
    apply h
    have hp := List.perm_insertionSort yearLe (kpiMatched ds ind country y0 y1)
    rw [hnil] at hp
    exact hp.symm.eq_nil
  have hlast := List.getLast?_eq_getLast_of_ne_nil hs
  have hlmem := List.getLast_mem hs
  obtain ⟨ly, hly⟩ := kpiMatchedSorted_year_isSome hlmem
  have hhead := List.head?_eq_head hs
  have hfmem := List.head_mem hs
  obtain ⟨fy, hfy⟩ := kpiMatchedSorted_year_isSome hfmem
  have heq : update_kpis ds ind country y0 y1 =
      some (kpiRecord ds ind country y0 y1
        (List.insertionSort yearLe (kpiMatched ds ind country y0 y1))
        ((List.insertionSort yearLe (kpiMatched ds ind country y0 y1)).getLast hs)
        ((List.insertionSort yearLe (kpiMatched ds ind country y0 y1)).head hs)
        ly fy) := by
    simp only [update_kpis]
    rw [if_neg h]
    simp only [hlast, hly, hhead, hfy]
  refine ⟨_, heq, ?_, ?_, ?_, ?_⟩
  · exact npGood_renderNp (toNpF_finOrNan _)
  · exact npGood_renderNp (varPctOf_finOrNan _ _)
  · exact npGood_renderNp (varAbsOf_finOrNan _ _)
  · exact cagrGood_render _ _ _

/-- Witness of `C3_metrics_total_and_guarded` on a one-row selection. -/
def dsW3 : List CRow := [⟨"DEU", "Germany", some 2020, some 100, "X"⟩]

/-- Witness of `C3_metrics_total_and_guarded`: the hypothesis holds on the
concrete one-row dataset and the conclusion follows. -/
theorem C3_metrics_total_and_guarded_witness :
    kpiMatched dsW3 "X" "Germany" 2000 2024 ≠ [] ∧
    ∃ o, update_kpis dsW3 "X" "Germany" 2000 2024 = some o ∧
      npGood o.kpiValue ∧ npGood o.kpiVar ∧ npGood o.kpiVarAbs ∧
      cagrGood o.kpiCagr :=
  ⟨by decide, C3_metrics_total_and_guarded dsW3 "X" "Germany" 2000 2024 (by decide)⟩

/-- The KPI callback on a non-empty selection returns the success record of
the sorted selection's first and last rows, provided their years are
non-NaN. -/
theorem update_kpis_eq_record {ds : List CRow} {ind country : String}
    {y0 y1 : ℤ} {lastRow firstRow : CRow} {ly fy : ℚ}
    (h : kpiMatched ds ind country y0 y1 ≠ [])
    (hlast : (kpiMatchedSorted ds ind country y0 y1).getLast? = some lastRow)
    (hly : lastRow.year = some ly)
    (hhead : (kpiMatchedSorted ds ind country y0 y1).head? = some firstRow)
    (hfy : firstRow.year = some fy) :
    update_kpis ds ind country y0 y1 =
      some (kpiRecord ds ind country y0 y1
        (kpiMatchedSorted ds ind country y0 y1) lastRow firstRow ly fy) := by
  simp only [kpiMatchedSorted] at hlast hhead ⊢
  simp only [update_kpis]
  rw [if_neg h]
  simp only [hlast, hly, hhead, hfy]

/-- Availability and value of the CAGR card as the code actually computes
it, stated from the amended claim's wording: the value is determined by the
ratio `l / f` and the span `n` whenever `f` is nonzero non-NaN and the base
of the fractional power is nonnegative (or the exponent is the integer 1),
and it is `'N/A'` when `f` is zero or NaN, `l` is NaN, or the ratio is
negative under a fractional exponent — but NOT merely because `f` is
negative. -/
def cagrSpec (fv lv : Option ℚ) (n : ℕ) : Option CagrV :=
  match fv with
  | none => none
  | some f =>
    if f = 0 then none
    else
      match lv with
      | none => none
      | some l =>
        if l / f < 0 ∧ 2 ≤ n then none
        else if n ≤ 1 then some (.exact ((l / f - 1) * 100))
        else some (.irr (l / f) n)

/-- The rendered CAGR card coincides with the amended characterization. -/
theorem cagr_render_eq_spec (lv fv : Option ℚ) (n : ℕ) :
    (if cagrNotna (cagrValOf lv fv n) then some (cagrValOf lv fv n) else none) =
      cagrSpec fv lv n := by
  cases fv with
  | none =>
    have hval : cagrValOf lv none n = .nan := by
      simp [cagrValOf, toNpF, notna]
    rw [hval]
    simp [cagrNotna, cagrSpec]
  | some f =>
    by_cases hf : f = 0
    · subst hf
      have hval : cagrValOf lv (some 0) n = .nan := by
        simp [cagrValOf, toNpF, npNeZero]
      rw [hval]
      simp [cagrNotna, cagrSpec]
    · have hval : cagrValOf lv (some f) n =
          cagrPowEval (npDiv (toNpF lv) (.fin f)) n := by
        simp [cagrValOf, toNpF, npNeZero, notna, hf]
      cases lv with
      | none =>
        rw [hval]
        simp [cagrSpec, hf, toNpF, npDiv, cagrPowEval, cagrNotna]
      | some l =>
        have hdiv : npDiv (toNpF (some l)) (NpF.fin f) = .fin (l / f) := by
          simp [toNpF, npDiv, hf]
        rw [hval, hdiv]
        by_cases hn : n ≤ 1
        · have hpow : cagrPowEval (NpF.fin (l / f)) n = .exact ((l / f - 1) * 100) := by
            simp [cagrPowEval, hn]
          have h2 : ¬ (l / f < 0 ∧ 2 ≤ n) := fun hc => absurd hc.2 (by omega)
          rw [hpow]
          simp [cagrNotna, cagrSpec, hf, h2, hn]
        · have h2n : 2 ≤ n := by omega
          by_cases hneg : l / f < 0
          · have hpow : cagrPowEval (NpF.fin (l / f)) n = .nan := by
              simp [cagrPowEval, hn, hneg]
            rw [hpow]
            simp [cagrNotna, cagrSpec, hf, hneg, h2n]
          · have hpow : cagrPowEval (NpF.fin (l / f)) n = .irr (l / f) n := by
              simp [cagrPowEval, hn, hneg]
            rw [hpow]
            simp [cagrNotna, cagrSpec, hf, hneg, hn]

/-- C4 (amended): for every non-empty selection, the CAGR output equals
`cagrSpec` of the first and last values and the span: it is the value of
`((Latest/First) ^ (1/n) - 1) * 100` whenever `First` is nonzero non-missing
and `Latest/First` is nonnegative or `n = 1`, and `'N/A'` exactly when
`First` is zero or missing, `Latest` is missing, or `Latest/First` is
negative with `n ≥ 2`.  In particular a negative `First` yields a computed
number whenever the ratio is nonnegative or the span is a single year. -/
theorem C4_cagr_characterization (ds : List CRow) (ind country : String)
    (y0 y1 : ℤ) (h : kpiMatched ds ind country y0 y1 ≠ []) :
    ∃ o, update_kpis ds ind country y0 y1 = some o ∧
      ∀ lastRow firstRow ly fy,
        (kpiMatchedSorted ds ind country y0 y1).getLast? = some lastRow →
        (kpiMatchedSorted ds ind country y0 y1).head? = some firstRow →
        lastRow.year = some ly → firstRow.year = some fy →
        o.kpiCagr = cagrSpec firstRow.value lastRow.value
          ((max 1 (ratTrunc ly - ratTrunc fy)).toNat) := by
  have hs : kpiMatchedSorted ds ind country y0 y1 ≠ [] := by
    intro hnil
    apply h
    have hp := List.perm_insertionSort yearLe (kpiMatched ds ind country y0 y1)
    rw [show List.insertionSort yearLe (kpiMatched ds ind country y0 y1) =
      kpiMatchedSorted ds ind country y0 y1 from rfl, hnil] at hp
    exact hp.symm.eq_nil
  have hlast := List.getLast?_eq_getLast_of_ne_nil hs
  obtain ⟨ly, hly⟩ := kpiMatchedSorted_year_isSome (List.getLast_mem hs)
  have hhead := List.head?_eq_head hs
  obtain ⟨fy, hfy⟩ := kpiMatchedSorted_year_isSome (List.head_mem hs)
  refine ⟨_, update_kpis_eq_record h hlast hly hhead hfy, ?_⟩
  intro lastRow' firstRow' ly' fy' hl' hh' hly' hfy'
  obtain rfl : (kpiMatchedSorted ds ind country y0 y1).getLast hs = lastRow' :=
    Option.some.inj (hlast.symm.trans hl')
  obtain rfl : (kpiMatchedSorted ds ind country y0 y1).head hs = firstRow' :=
    Option.some.inj (hhead.symm.trans hh')
  obtain rfl : ly = ly' := Option.some.inj (hly.symm.trans hly')
  obtain rfl : fy = fy' := Option.some.inj (hfy.symm.trans hfy')
  simp only [kpiRecord]
  exact cagr_render_eq_spec _ _ _

/-- Two rows of the C4 witness: both values negative, ten years apart. -/
def rW4a : CRow := ⟨"DEU", "Germany", some 2000, some (-4), "X"⟩

/-- Later row of the C4 witness. -/
def rW4b : CRow := ⟨"DEU", "Germany", some 2010, some (-1), "X"⟩

/-- Dataset of the C4 witness. -/
def dsW4 : List CRow := [rW4a, rW4b]

/-- Witness of `C4_cagr_characterization`: with a NEGATIVE first value -4
and last value -1 over a ten-year span, the CAGR card is the computed
finite power value of the nonnegative ratio 1/4, not `'N/A'`. -/
theorem C4_cagr_characterization_witness :
    kpiMatched dsW4 "X" "Germany" 2000 2024 ≠ [] ∧
    ∃ o, update_kpis dsW4 "X" "Germany" 2000 2024 = some o ∧
      o.kpiCagr = some (CagrV.irr (1/4) 10) := by
  refine ⟨by decide, ?_⟩
  obtain ⟨o, ho, hc⟩ :=
    C4_cagr_characterization dsW4 "X" "Germany" 2000 2024 (by decide)
  refine ⟨o, ho, ?_⟩
  have hinst := hc rW4b rW4a 2010 2000 (by decide) (by decide) (by decide) (by decide)
  have hn : ((max 1 (ratTrunc (2010 : ℚ) - ratTrunc (2000 : ℚ))).toNat) = 10 := by decide
  rw [hinst, hn]
  show cagrSpec (some (-4)) (some (-1)) 10 = some (CagrV.irr (1/4) 10)
  have hne : ((-4 : ℚ)) ≠ 0 := by norm_num
  have hratio : ((-1 : ℚ)) / (-4) = 1/4 := by norm_num
  simp only [cagrSpec, if_neg hne, hratio]
  norm_num

/-- C7: for every selection with at least two matching rows, the
`vs. Previous Year` card shows `YoYDeltaAbs = latest - secondLast` whenever
both values are present, and `YoYDeltaPct = (latest - secondLast) /
secondLast * 100` unless the second-to-last value is zero, in which case
the percentage is `'N/A'` while the absolute delta is still the computed
number. -/
theorem C7_yoy_delta_formulas (ds : List CRow) (ind country : String)
    (y0 y1 : ℤ) (h2 : 2 ≤ (kpiMatchedSorted ds ind country y0 y1).length) :
    ∃ o, update_kpis ds ind country y0 y1 = some o ∧
      ∀ lastRow prevRow,
        (kpiMatchedSorted ds ind country y0 y1).getLast? = some lastRow →
        (kpiMatchedSorted ds ind country y0 y1)[
          (kpiMatchedSorted ds ind country y0 y1).length - 2]? = some prevRow →
        ∀ l p, lastRow.value = some l → prevRow.value = some p →
          o.kpiVarAbs = some (.fin (l - p)) ∧
          (p ≠ 0 → o.kpiVar = some (.fin ((l - p) / p * 100))) ∧
          (p = 0 → o.kpiVar = none) := by
  have hs : kpiMatchedSorted ds ind country y0 y1 ≠ [] := by
    intro hnil
    rw [hnil] at h2
    simp at h2
  have h : kpiMatched ds ind country y0 y1 ≠ [] := by
    intro hnil
    apply hs
    simp only [kpiMatchedSorted, hnil]
    rfl
  have hlast := List.getLast?_eq_getLast_of_ne_nil hs
  obtain ⟨ly, hly⟩ := kpiMatchedSorted_year_isSome (List.getLast_mem hs)
  have hhead := List.head?_eq_head hs
  obtain ⟨fy, hfy⟩ := kpiMatchedSorted_year_isSome (List.head_mem hs)
  refine ⟨_, update_kpis_eq_record h hlast hly hhead hfy, ?_⟩
  intro lastRow' prevRow hl' hp' l p hlv hpv
  obtain rfl : (kpiMatchedSorted ds ind country y0 y1).getLast hs = lastRow' :=
    Option.some.inj (hlast.symm.trans hl')
  have habs : varAbsOf (kpiMatchedSorted ds ind country y0 y1)
      ((kpiMatchedSorted ds ind country y0 y1).getLast hs).value = .fin (l - p) := by
    simp [varAbsOf, h2, hp', hlv, hpv, toNpF, npSub]
  refine ⟨?_, ?_, ?_⟩
  · simp only [kpiRecord, habs]
    rfl
  · intro hp0
    have hpct : varPctOf (kpiMatchedSorted ds ind country y0 y1)
        ((kpiMatchedSorted ds ind country y0 y1).getLast hs).value =
        .fin ((l - p) / p * 100) := by
      simp [varPctOf, h2, hp', hlv, hpv, toNpF, npNeZero, notna, hp0,
        npSub, npDiv, npMul]
    simp only [kpiRecord, hpct]
    rfl
  · intro hp0
    have hpct : varPctOf (kpiMatchedSorted ds ind country y0 y1)
        ((kpiMatchedSorted ds ind country y0 y1).getLast hs).value = .nan := by
      simp [varPctOf, h2, hp', hpv, toNpF, npNeZero, notna, hp0]
    simp only [kpiRecord, hpct]
    rfl

/-- Earlier row of the C7 witness: Germany 2020, value 100. -/
def rW7a : CRow := ⟨"DEU", "Germany", some 2020, some 100, "X"⟩

/-- Later row of the C7 witness: Germany 2021, value 110. -/
def rW7b : CRow := ⟨"DEU", "Germany", some 2021, some 110, "X"⟩

/-- Dataset of the C7 witness (the spec's own scenario). -/
def dsW7 : List CRow := [rW7a, rW7b]

/-- Witness of `C7_yoy_delta_formulas`, the spec scenario Germany
2020 = 100, 2021 = 110: the delta card shows +10 and +10.00%. -/
theorem C7_yoy_delta_formulas_witness :
    2 ≤ (kpiMatchedSorted dsW7 "X" "Germany" 2020 2021).length ∧
    ∃ o, update_kpis dsW7 "X" "Germany" 2020 2021 = some o ∧
      o.kpiVarAbs = some (.fin 10) ∧ o.kpiVar = some (.fin 10) := by
  refine ⟨by decide, ?_⟩
  obtain ⟨o, ho, hspec⟩ :=
    C7_yoy_delta_formulas dsW7 "X" "Germany" 2020 2021 (by decide)
  obtain ⟨habs, hpct, -⟩ :=
    hspec rW7b rW7a (by decide) (by decide) 110 100 (by decide) (by decide)
  refine ⟨o, ho, ?_, ?_⟩
  · rw [habs]
    norm_num
  · rw [hpct (by norm_num)]
    norm_num

/-- Position of a country's first row in a value-descending sorted list
with pairwise-distinct values: the 0-based index found by `findIdx?` is
exactly the number of rows with a strictly greater value, which is what
"rank = 1-based position after sorting descending" means. -/
theorem rank_findIdx (c : String) (v : ℚ) :
    ∀ l : List CRow, l.Sorted valGe →
      (l.map (fun r => r.value.getD 0)).Nodup →
      (∃ r ∈ l, r.country = c) →
      (∀ r ∈ l, r.country = c → r.value.getD 0 = v) →
      l.findIdx? (fun r => r.country == c) =
        some (l.countP (fun r => decide (v < r.value.getD 0)))
  | [] => by
    intro _ _ hex _
    rcases hex with ⟨r, hr, _⟩
    simp at hr
  | x :: xs => by
    intro hsort hnd hex hval
    rcases List.sorted_cons.mp hsort with ⟨hxall, hsxs⟩
    rw [List.map_cons, List.nodup_cons] at hnd
    by_cases hx : x.country = c
    · have hxv : x.value.getD 0 = v := hval x (List.mem_cons_self x xs) hx
      have hcount : (x :: xs).countP (fun r => decide (v < r.value.getD 0)) = 0 := by
        rw [List.countP_eq_zero]
        intro r hr
        rcases List.mem_cons.mp hr with rfl | hr'
        · simp [hxv]
        · have hle : r.value.getD 0 ≤ x.value.getD 0 := hxall r hr'
          simp only [decide_eq_true_eq]
          rw [← hxv]
          exact not_lt_of_le hle
      rw [hcount]
      simp [List.findIdx?_cons, hx]
    · obtain ⟨r0, hr0mem, hr0c⟩ := hex
      rcases List.mem_cons.mp hr0mem with rfl | hr0xs
      · exact absurd hr0c hx
      have hr0v : r0.value.getD 0 = v := hval r0 hr0mem hr0c
      have hIH := rank_findIdx c v xs hsxs hnd.2 ⟨r0, hr0xs, hr0c⟩
        (fun r hr hc => hval r (List.mem_cons_of_mem _ hr) hc)
      have hxgt : v < x.value.getD 0 := by
        have hle : r0.value.getD 0 ≤ x.value.getD 0 := hxall r0 hr0xs
        have hne : x.value.getD 0 ≠ v := by
          intro heq
          apply hnd.1
          rw [heq, ← hr0v]
          exact List.mem_map_of_mem _ hr0xs
        rw [hr0v] at hle
        exact lt_of_le_of_ne hle (Ne.symm hne)
      rw [List.countP_cons]
      simp only [List.findIdx?_cons, hx, decide_eq_true_eq, hxgt, if_true]
      rw [List.findIdx?_succ, hIH]
      simp [hx, hxgt]

/-- C6: for every non-empty selection, the rank card is computed over ALL
countries of the dataset for the selected indicator at exactly the latest
year of the selected country's selection: missing values are dropped, the
remainder is ordered descending by value, and the text is `"#k of n"` with
`k` the 1-based position of the selected country — equivalently, when the
cross-section's values are pairwise distinct and the country holds value
`v`, one plus the number of countries with value above `v`. -/
theorem C6_rank_is_position_desc (ds : List CRow) (ind country : String)
    (y0 y1 : ℤ) (h : kpiMatched ds ind country y0 y1 ≠ []) :
    ∃ o, update_kpis ds ind country y0 y1 = some o ∧
      ∀ lastRow ly,
        (kpiMatchedSorted ds ind country y0 y1).getLast? = some lastRow →
        lastRow.year = some ly →
        ∀ v : ℚ,
          (∃ r ∈ crossSection ds ind (ratTrunc ly), r.country = country) →
          (∀ r ∈ crossSection ds ind (ratTrunc ly), r.country = country →
            r.value.getD 0 = v) →
          ((crossSection ds ind (ratTrunc ly)).map (fun r => r.value.getD 0)).Nodup →
          o.kpiRank = "#" ++
              toString ((crossSection ds ind (ratTrunc ly)).countP
                (fun r => decide (v < r.value.getD 0)) + 1) ++
              " of " ++ toString (crossSection ds ind (ratTrunc ly)).length ∧
          o.kpiTop = "Year " ++ toString (ratTrunc ly) := by
  have hs : kpiMatchedSorted ds ind country y0 y1 ≠ [] := by
    intro hnil
    apply h
    have hp := List.perm_insertionSort yearLe (kpiMatched ds ind country y0 y1)
    rw [show List.insertionSort yearLe (kpiMatched ds ind country y0 y1) =
      kpiMatchedSorted ds ind country y0 y1 from rfl, hnil] at hp
    exact hp.symm.eq_nil
  have hlast := List.getLast?_eq_getLast_of_ne_nil hs
  obtain ⟨ly, hly⟩ := kpiMatchedSorted_year_isSome (List.getLast_mem hs)
  have hhead := List.head?_eq_head hs
  obtain ⟨fy, hfy⟩ := kpiMatchedSorted_year_isSome (List.head_mem hs)
  refine ⟨_, update_kpis_eq_record h hlast hly hhead hfy, ?_⟩
  intro lastRow' ly' hl' hly'
  obtain rfl : (kpiMatchedSorted ds ind country y0 y1).getLast hs = lastRow' :=
    Option.some.inj (hlast.symm.trans hl')
  obtain rfl : ly = ly' := Option.some.inj (hly.symm.trans hly')
  intro v hex hval hnd
  have hne : crossSection ds ind (ratTrunc ly) ≠ [] := by
    rcases hex with ⟨r, hr, _⟩
    intro hnil
    rw [hnil] at hr
    simp at hr
  have hperm := List.perm_insertionSort valGe (crossSection ds ind (ratTrunc ly))
  have hsorted := List.sorted_insertionSort valGe (crossSection ds ind (ratTrunc ly))
  have hnd' : ((List.insertionSort valGe (crossSection ds ind (ratTrunc ly))).map
      (fun r => r.value.getD 0)).Nodup :=
    ((hperm.map (fun r => r.value.getD 0)).nodup_iff).mpr hnd
  have hex' : ∃ r ∈ List.insertionSort valGe (crossSection ds ind (ratTrunc ly)),
      r.country = country := by
    rcases hex with ⟨r, hr, hrc⟩
    exact ⟨r, (List.mem_insertionSort valGe).mpr hr, hrc⟩
  have hval' : ∀ r ∈ List.insertionSort valGe (crossSection ds ind (ratTrunc ly)),
      r.country = country → r.value.getD 0 = v := by
    intro r hr hrc
    exact hval r ((List.mem_insertionSort valGe).mp hr) hrc
  have hfind := rank_findIdx country v _ hsorted hnd' hex' hval'
  have hcnt := hperm.countP_eq (fun r => decide (v < r.value.getD 0))
  have hlen := hperm.length_eq
  have hrank : rankTextOf ds ind country (ratTrunc ly) =
      ("#" ++ toString ((crossSection ds ind (ratTrunc ly)).countP
          (fun r => decide (v < r.value.getD 0)) + 1) ++
        " of " ++ toString (crossSection ds ind (ratTrunc ly)).length,
       "Year " ++ toString (ratTrunc ly)) := by
    simp only [rankTextOf]
    rw [if_neg hne]
    simp only [hfind, hcnt, hlen]
  constructor
  · simp only [kpiRecord, hrank]
  · simp only [kpiRecord, hrank]

/-- Cross-section of the C6 witness, the spec's rank scenario: Germany 110,
France 90, Spain 80 at year 2021 for indicator "X". -/
def dsW6 : List CRow :=
  [⟨"DEU", "Germany", some 2021, some 110, "X"⟩,
   ⟨"FRA", "France", some 2021, some 90, "X"⟩,
   ⟨"ESP", "Spain", some 2021, some 80, "X"⟩]

/-- Witness of `C6_rank_is_position_desc`, the spec scenario: over
{Germany: 110, France: 90, Spain: 80} at year 2021, Germany's card shows
`"#1 of 3"`. -/
theorem C6_rank_is_position_desc_witness :
    kpiMatched dsW6 "X" "Germany" 2020 2021 ≠ [] ∧
    ∃ o, update_kpis dsW6 "X" "Germany" 2020 2021 = some o ∧
      o.kpiRank = "#1 of 3" ∧ o.kpiTop = "Year 2021" := by
  refine ⟨by decide, ?_⟩
  obtain ⟨o, ho, hr⟩ :=
    C6_rank_is_position_desc dsW6 "X" "Germany" 2020 2021 (by decide)
  obtain ⟨hrank, htop⟩ := hr ⟨"DEU", "Germany", some 2021, some 110, "X"⟩ 2021
    (by decide) (by decide) 110 (by decide) (by decide) (by decide)
  refine ⟨o, ho, ?_, ?_⟩
  · rw [hrank]
    have : (crossSection dsW6 "X" (ratTrunc (2021 : ℚ))).countP
        (fun r => decide ((110 : ℚ) < r.value.getD 0)) = 0 := by decide
    rw [this]
    decide
  · rw [htop]
    decide

/-! ### Cache locality: one indicator's fetches touch only its own keys -/

/-- A fetch leaves every cache entry of a different indicator code
untouched. -/
theorem fetch_writes_local (net : Net) (c : Cache) (k : Key) (k' : Key)
    (hk' : k'.code ≠ k.code) : ((fetch_worldbank_page net c k).2) k' = c k' := by
  unfold fetch_worldbank_page
  split
  · rfl
  · split
    · simp only [cacheSet]
      rw [if_neg (fun he => hk' (congrArg Key.code he))]
    · rfl

/-- The pagination loop of one indicator leaves every cache entry of a
different indicator code untouched: each fetched page key and the mutated
page-1 key carry this indicator's code. -/
theorem pageLoop_writes_local (net : Net) (ciso icode dr : String)
    (meta : WBMeta) :
    ∀ (ps : List ℕ) (acc : List WBRec) (c : Cache) (k' : Key),
      k'.code ≠ icode →
      ((pageLoop net ciso icode dr meta ps acc c).2) k' = c k'
  | [], acc, c, k', hk' => rfl
  | p :: ps, acc, c, k', hk' => by
    have hf := fetch_writes_local net c ⟨ciso, icode, dr, p⟩ k' hk'
    simp only [pageLoop]
    split
    · rename_i e c' hfp
      rw [hfp] at hf
      exact hf
    · rename_i resp c' hfp
      rw [hfp] at hf
      split
      · exact (pageLoop_writes_local net ciso icode dr meta ps acc c' k' hk').trans hf
      · rename_i m rows
        split
        · exact (pageLoop_writes_local net ciso icode dr meta ps acc c' k' hk').trans hf
        · refine (pageLoop_writes_local net ciso icode dr meta ps (acc ++ rows) _ k' hk').trans ?_
          simp only [cacheSet]
          rw [if_neg (fun he => hk' (congrArg Key.code he))]
          exact hf

/-- One indicator's whole aggregation leaves every cache entry of a
different indicator code untouched, whether it succeeds or raises. -/
theorem aggregateOne_writes_local (net : Net) (cd : List (String × String))
    (ciso dr : String) (ind : String × String) (c : Cache) (k' : Key)
    (hk' : k'.code ≠ ind.2) :
    ((aggregateOne net cd ciso dr ind c).2) k' = c k' := by
  unfold aggregateOne
  have hf := fetch_worldbank_page net c ⟨ciso, ind.2, dr, 1⟩
  have hfl := fetch_writes_local net c ⟨ciso, ind.2, dr, 1⟩ k' hk'
  split
  · rename_i e c1 hfp
    rw [hfp] at hfl
    exact hfl
  · rename_i fp c1 hfp
    rw [hfp] at hfl
    split
    · exact hfl
    · rename_i meta rows1
      split
      · exact hfl
      · split
        · exact hfl
        · rename_i tp htp
          have hpl0 := pageLoop_writes_local net ciso ind.2 dr meta
            (List.range' 2 (tp - 1).toNat) rows1 c1 k' hk'
          split
          · rename_i e c2 hpl
            rw [hpl] at hpl0
            exact hpl0.trans hfl
          · rename_i allRows c2 hpl
            rw [hpl] at hpl0
            split
            · exact hpl0.trans hfl
            · exact hpl0.trans hfl

/-- Agreement of two cache states on every key whose indicator code lies in
`S`. -/
def cacheAgree (S : List String) (c1 c2 : Cache) : Prop :=
  ∀ k : Key, k.code ∈ S → c1 k = c2 k

/-- Storing the same value under the same key preserves agreement. -/
theorem cacheSet_agree {S : List String} {c1 c2 : Cache}
    (hag : cacheAgree S c1 c2) (k : Key) (v : WBResp) :
    cacheAgree S (cacheSet c1 k v) (cacheSet c2 k v) := by
  intro k'' hk''
  unfold cacheSet
  by_cases he : k'' = k
  · rw [if_pos he, if_pos he]
  · rw [if_neg he, if_neg he]
    exact hag k'' hk''

/-- Two fetches from caches agreeing on this indicator's keys return the
same response and leave the caches agreeing. -/
theorem fetch_agree {S : List String} {c1 c2 : Cache}
    (hag : cacheAgree S c1 c2) (net : Net) (k : Key) (hk : k.code ∈ S) :
    (fetch_worldbank_page net c1 k).1 = (fetch_worldbank_page net c2 k).1 ∧
    cacheAgree S (fetch_worldbank_page net c1 k).2 (fetch_worldbank_page net c2 k).2 := by
  have hck : c1 k = c2 k := hag k hk
  unfold fetch_worldbank_page
  rw [hck]
  cases hc : c2 k with
  | some v => simp only [hc]; exact ⟨by trivial, hag⟩
  | none =>
    simp only [hc]
    cases hn : net k with
    | ok v => simp only [hn]; exact ⟨by trivial, cacheSet_agree hag k v⟩
    | error e => simp only [hn]; exact ⟨by trivial, hag⟩

/-- The pagination loop run from two caches agreeing on this indicator's
keys produces the same record list (or failure) and leaves the caches
agreeing. -/
theorem pageLoop_agree {S : List String} (net : Net) (ciso icode dr : String)
    (meta : WBMeta) (hk : icode ∈ S) :
    ∀ (ps : List ℕ) (acc : List WBRec) (c1 c2 : Cache),
      cacheAgree S c1 c2 →
      (pageLoop net ciso icode dr meta ps acc c1).1 =
        (pageLoop net ciso icode dr meta ps acc c2).1 ∧
      cacheAgree S (pageLoop net ciso icode dr meta ps acc c1).2
        (pageLoop net ciso icode dr meta ps acc c2).2
  | [], acc, c1, c2, hag => ⟨rfl, hag⟩
  | p :: ps, acc, c1, c2, hag => by
    obtain ⟨hres, hag'⟩ := fetch_agree hag net ⟨ciso, icode, dr, p⟩ hk
    rcases hf1 : fetch_worldbank_page net c1 ⟨ciso, icode, dr, p⟩ with ⟨r1, c1'⟩
    rcases hf2 : fetch_worldbank_page net c2 ⟨ciso, icode, dr, p⟩ with ⟨r2, c2'⟩
    rw [hf1, hf2] at hres hag'
    simp only at hres hag'
    subst hres
    cases r1 with
    | error e =>
      simp only [pageLoop, hf1, hf2]
      exact ⟨by trivial, hag'⟩
    | ok resp =>
      cases resp with
      | malformed =>
        simp only [pageLoop, hf1, hf2]
        exact pageLoop_agree net ciso icode dr meta hk ps acc c1' c2' hag'
      | pair m rows =>
        simp only [pageLoop, hf1, hf2]
        by_cases hr : rows = []
        · rw [if_pos hr, if_pos hr]
          exact pageLoop_agree net ciso icode dr meta hk ps acc c1' c2' hag'
        · rw [if_neg hr, if_neg hr]
          exact pageLoop_agree net ciso icode dr meta hk ps (acc ++ rows) _ _
            (cacheSet_agree hag' _ _)

/-- One indicator's aggregation run from two caches agreeing on its keys
returns the same rows (or the same failure) and leaves the caches
agreeing. -/
theorem aggregateOne_agree {S : List String} (net : Net)
    (cd : List (String × String)) (ciso dr : String) (ind : String × String)
    (hk : ind.2 ∈ S) {c1 c2 : Cache} (hag : cacheAgree S c1 c2) :
    (aggregateOne net cd ciso dr ind c1).1 = (aggregateOne net cd ciso dr ind c2).1 ∧
    cacheAgree S (aggregateOne net cd ciso dr ind c1).2
      (aggregateOne net cd ciso dr ind c2).2 := by
  obtain ⟨hres, hag'⟩ := fetch_agree hag net ⟨ciso, ind.2, dr, 1⟩ hk
  rcases hf1 : fetch_worldbank_page net c1 ⟨ciso, ind.2, dr, 1⟩ with ⟨r1, c1'⟩
  rcases hf2 : fetch_worldbank_page net c2 ⟨ciso, ind.2, dr, 1⟩ with ⟨r2, c2'⟩
  rw [hf1, hf2] at hres hag'
  simp only at hres hag'
  subst hres
  cases r1 with
  | error e =>
    simp only [aggregateOne, hf1, hf2]
    exact ⟨by trivial, hag'⟩
  | ok fp =>
    cases fp with
    | malformed =>
      simp only [aggregateOne, hf1, hf2]
      exact ⟨by trivial, hag'⟩
    | pair meta rows1 =>
      simp only [aggregateOne, hf1, hf2]
      by_cases hr : rows1 = []
      · rw [if_pos hr, if_pos hr]
        exact ⟨by trivial, hag'⟩
      · rw [if_neg hr, if_neg hr]
        cases htp : totalPagesOf meta with
        | error e =>
          simp only [htp]
          exact ⟨by trivial, hag'⟩
        | ok tp =>
          simp only [htp]
          obtain ⟨hpls, hagl⟩ := pageLoop_agree net ciso ind.2 dr meta hk
            (List.range' 2 (tp - 1).toNat) rows1 c1' c2' hag'
          rcases hp1 : pageLoop net ciso ind.2 dr meta
              (List.range' 2 (tp - 1).toNat) rows1 c1' with ⟨pl1, d1⟩
          rcases hp2 : pageLoop net ciso ind.2 dr meta
              (List.range' 2 (tp - 1).toNat) rows1 c2' with ⟨pl2, d2⟩
          rw [hp1, hp2] at hpls hagl
          simp only at hpls hagl
          subst hpls
          cases pl1 with
          | error e =>
            simp only [hp1, hp2]
            exact ⟨by trivial, hagl⟩
          | ok allRows =>
            simp only [hp1, hp2]
            by_cases ha : allRows = []
            · rw [if_pos ha, if_pos ha]
              exact ⟨by trivial, hagl⟩
            · rw [if_neg ha, if_neg ha]
              exact ⟨by trivial, hagl⟩

/-- The per-indicator build loop run from two caches agreeing on all the
registry's codes yields the same contributions and preserves agreement. -/
theorem buildAux_agree {S : List String} (net : Net)
    (cd : List (String × String)) (ciso dr : String) :
    ∀ (inds : List (String × String)) (c1 c2 : Cache),
      (∀ i ∈ inds, i.2 ∈ S) → cacheAgree S c1 c2 →
      (buildAux net cd ciso dr inds c1).1 = (buildAux net cd ciso dr inds c2).1 ∧
      cacheAgree S (buildAux net cd ciso dr inds c1).2
        (buildAux net cd ciso dr inds c2).2
  | [], c1, c2, _, hag => ⟨rfl, hag⟩
  | ind :: inds, c1, c2, hcodes, hag => by
    obtain ⟨hres, hag'⟩ := aggregateOne_agree net cd ciso dr ind
      (hcodes ind (List.mem_cons_self ind inds)) hag
    obtain ⟨hrest, hagr⟩ := buildAux_agree net cd ciso dr inds
      (aggregateOne net cd ciso dr ind c1).2 (aggregateOne net cd ciso dr ind c2).2
      (fun i hi => hcodes i (List.mem_cons_of_mem _ hi)) hag'
    constructor
    · simp only [buildAux, hres, hrest]
    · simp only [buildAux]
      exact hagr

/-- The per-indicator build loop leaves every cache entry whose code is
outside the registry untouched. -/
theorem buildAux_writes_local (net : Net) (cd : List (String × String))
    (ciso dr : String) :
    ∀ (inds : List (String × String)) (c : Cache) (k' : Key),
      (∀ i ∈ inds, k'.code ≠ i.2) →
      ((buildAux net cd ciso dr inds c).2) k' = c k'
  | [], c, k', _ => rfl
  | ind :: inds, c, k', hk' => by
    simp only [buildAux]
    refine (buildAux_writes_local net cd ciso dr inds _ k'
      (fun i hi => hk' i (List.mem_cons_of_mem _ hi))).trans ?_
    exact aggregateOne_writes_local net cd ciso dr ind c k'
      (hk' ind (List.mem_cons_self ind inds))

/-- Splitting the per-indicator build loop at a registry position. -/
theorem buildAux_append (net : Net) (cd : List (String × String))
    (ciso dr : String) :
    ∀ (l1 l2 : List (String × String)) (c : Cache),
      buildAux net cd ciso dr (l1 ++ l2) c =
        ((buildAux net cd ciso dr l1 c).1 ++
          (buildAux net cd ciso dr l2 (buildAux net cd ciso dr l1 c).2).1,
         (buildAux net cd ciso dr l2 (buildAux net cd ciso dr l1 c).2).2)
  | [], l2, c => by simp [buildAux]
  | ind :: l1, l2, c => by
    simp only [List.cons_append, buildAux, List.append_eq]
    rw [buildAux_append net cd ciso dr l1 l2 (aggregateOne net cd ciso dr ind c).2]

/-- C5: aggregation failures are isolated per indicator.  If the indicator
`j` raises at any step of its processing (its aggregation from the cache
state reached at its turn returns an error), then — for a registry with
distinct codes and distinct display names — the dataset build returns
exactly what it returns without `j` in the registry: `j` contributes zero
rows, every other indicator's rows are unchanged, and the build itself
never raises (it is a total function by the `except` handler at line 97). -/
theorem C5_indicator_failure_isolated (net : Net) (cd : List (String × String))
    (y0 y1 : ℤ) (l1 l2 : List (String × String)) (j : String × String) (e : String)
    (hcodes : ((l1 ++ j :: l2).map (·.2)).Nodup)
    (hnames : ((l1 ++ j :: l2).map (·.1)).Nodup)
    (hj : (aggregateOne net cd (cisoOf cd) (drOf y0 y1) j
      (buildAux net cd (cisoOf cd) (drOf y0 y1) l1 emptyCache).2).1 = .error e) :
    (get_worldbank_data net cd (l1 ++ j :: l2) y0 y1 emptyCache).1 =
      (get_worldbank_data net cd (l1 ++ l2) y0 y1 emptyCache).1 ∧
    ∀ r ∈ (get_worldbank_data net cd (l1 ++ j :: l2) y0 y1 emptyCache).1,
      r.indicator ≠ j.1 := by
  rw [List.map_append, List.map_cons] at hcodes hnames
  rcases List.nodup_append.mp hcodes with ⟨-, hndc2, -⟩
  have hjcodes : j.2 ∉ l2.map (·.2) := (List.nodup_cons.mp hndc2).1
  rcases List.nodup_append.mp hnames with ⟨-, hndn2, hdisjn⟩
  have hjn2 : j.1 ∉ l2.map (·.1) := (List.nodup_cons.mp hndn2).1
  have hjn1 : j.1 ∉ l1.map (·.1) := fun hin =>
    hdisjn hin (List.mem_cons_self _ _)
  have hagree : cacheAgree (l2.map (·.2))
      (aggregateOne net cd (cisoOf cd) (drOf y0 y1) j
        (buildAux net cd (cisoOf cd) (drOf y0 y1) l1 emptyCache).2).2
      (buildAux net cd (cisoOf cd) (drOf y0 y1) l1 emptyCache).2 := by
    intro k hk
    exact aggregateOne_writes_local net cd _ _ j _ k (fun he => hjcodes (he ▸ hk))
  have hd2 := (buildAux_agree net cd (cisoOf cd) (drOf y0 y1) l2 _ _
    (fun i hi => List.mem_map_of_mem _ hi) hagree).1
  have hform : (buildAux net cd (cisoOf cd) (drOf y0 y1) (l1 ++ j :: l2) emptyCache).1 =
      (buildAux net cd (cisoOf cd) (drOf y0 y1) l1 emptyCache).1 ++
        [] :: (buildAux net cd (cisoOf cd) (drOf y0 y1) l2
          (aggregateOne net cd (cisoOf cd) (drOf y0 y1) j
            (buildAux net cd (cisoOf cd) (drOf y0 y1) l1 emptyCache).2).2).1 := by
    rw [buildAux_append net cd (cisoOf cd) (drOf y0 y1) l1 (j :: l2) emptyCache]
    simp only [buildAux, hj]
  have hform2 : (buildAux net cd (cisoOf cd) (drOf y0 y1) (l1 ++ l2) emptyCache).1 =
      (buildAux net cd (cisoOf cd) (drOf y0 y1) l1 emptyCache).1 ++
        (buildAux net cd (cisoOf cd) (drOf y0 y1) l2
          (buildAux net cd (cisoOf cd) (drOf y0 y1) l1 emptyCache).2).1 := by
    rw [buildAux_append net cd (cisoOf cd) (drOf y0 y1) l1 l2 emptyCache]
  constructor
  · simp only [get_worldbank_data]
    rw [hform, hform2, hd2]
    simp [List.flatten_append]
  · intro r hr
    simp only [get_worldbank_data] at hr
    have hr' := (List.mem_insertionSort lexLe).mp hr
    rw [hform] at hr'
    rw [List.flatten_append, List.flatten_cons, List.nil_append] at hr'
    intro heq
    rcases List.mem_append.mp hr' with hl | hl
    · have := (buildAux_flatten_mem net cd (cisoOf cd) (drOf y0 y1) l1
        emptyCache r hl).2
      exact hjn1 (heq ▸ this)
    · have := (buildAux_flatten_mem net cd (cisoOf cd) (drOf y0 y1) l2 _ r hl).2
      exact hjn2 (heq ▸ this)

/-- Network of the C5 witness: indicators `A`, `C`, `D` have a single page
of data; indicator `B` advertises two pages and its page-2 fetch fails. -/
def netC5 : Net := fun k =>
  if k.code = "B" then
    (if k.page = 1 then .ok (.pair ⟨some (.pInt 2)⟩ [recA]) else .error "boom")
  else if k.page = 1 then .ok (.pair ⟨some (.pInt 1)⟩ [recA])
  else .error "unexpected request"

/-- Witness of `C5_indicator_failure_isolated`, the spec's scenario: with
indicator `IB`'s page-2 fetch failing among four indicators, the dataset
equals the build without `IB`, carries no `IB` rows, and consists of the
three succeeding indicators' rows. -/
theorem C5_indicator_failure_isolated_witness :
    (get_worldbank_data netC5 cdDE
        ([("IA", "A")] ++ ("IB", "B") :: [("IC", "C"), ("ID", "D")])
        2000 2024 emptyCache).1 =
      (get_worldbank_data netC5 cdDE ([("IA", "A")] ++ [("IC", "C"), ("ID", "D")])
        2000 2024 emptyCache).1 ∧
    (∀ r ∈ (get_worldbank_data netC5 cdDE
        ([("IA", "A")] ++ ("IB", "B") :: [("IC", "C"), ("ID", "D")])
        2000 2024 emptyCache).1, r.indicator ≠ "IB") ∧
    (get_worldbank_data netC5 cdDE
        ([("IA", "A")] ++ ("IB", "B") :: [("IC", "C"), ("ID", "D")])
        2000 2024 emptyCache).1 =
      [⟨"DEU", "Germany", some 2020, some 1, "IA"⟩,
       ⟨"DEU", "Germany", some 2020, some 1, "IC"⟩,
       ⟨"DEU", "Germany", some 2020, some 1, "ID"⟩] := by
  have h := C5_indicator_failure_isolated netC5 cdDE 2000 2024
    [("IA", "A")] [("IC", "C"), ("ID", "D")] ("IB", "B") "boom"
    (by decide) (by decide) (by rfl)
  exact ⟨h.1, h.2, by decide⟩

end EuroViz
